import Mathlib

/-!
Verification of the Yandex 360 Disk trigger node (n8n-nodes-yandex360).

Shallow embedding of the polling change-detection engine:
  * the pure filter pipeline from `GenericFunctions.ts`
    (`filterByEventType`, `filterByFileType`, `filterByModifiedTime`,
    `applyLimit`, `filterByPath`), and
  * the `poll` method of `Yandex360DiskTrigger.node.ts` (the version that
    fetches via `api.recent` and returns immediately in manual mode).

Timestamps: the TypeScript code parses ISO-8601 strings with
`new Date(s).getTime()` and compares the resulting epoch milliseconds.
We model every timestamp directly as the parsed value, an `Int` of epoch
milliseconds; comparisons in the embedding are exactly the comparisons the
source performs on the parsed numbers.

Strings: JavaScript `s.startsWith(p)`, `s.endsWith(p)`, `s.trim()` and
`s.slice(0, -1)` are modelled on the character sequence of the Lean
`String` (its `data : List Char`), which mirrors the code-unit sequence of
the JS string for the inputs involved.
-/

/-- One element of the `items` array returned by the remote listing call
(`IYandexDiskResource`).  `created` and `modified` hold the parsed epoch
milliseconds of the ISO timestamp strings; `mime_type` is the optional
MIME type; `path` is the vendor-prefixed path such as `disk:/a/b`. -/
structure DItem where
  created : Int
  modified : Int
  mime_type : Option String
  path : String
deriving DecidableEq, Repr

/-- JavaScript `s.startsWith(p)`: `p` is a prefix of `s`. -/
def strStartsWith (s p : String) : Bool :=
  p.data.isPrefixOf s.data

/-- JavaScript `s.endsWith(p)`: `p` is a suffix of `s`. -/
def strEndsWith (s p : String) : Bool :=
  p.data.isSuffixOf s.data

/-- JavaScript `s.slice(0, -1)`: drop the last character. -/
def strDropLast (s : String) : String :=
  ⟨s.data.dropLast⟩

/-- Characters removed by JavaScript `String.prototype.trim`. -/
def isJsWhitespace (c : Char) : Bool :=
  c == ' ' || c == '\t' || c == '\n' || c == '\r' ||
  c == '\x0b' || c == '\x0c' || c == '\u00a0' || c == '\ufeff'

/-- JavaScript `s.trim()`: strip leading and trailing whitespace. -/
def strTrim (s : String) : String :=
  ⟨((s.data.dropWhile isJsWhitespace).reverse.dropWhile isJsWhitespace).reverse⟩

/-- `filterByEventType` from `GenericFunctions.ts`: keep items classified as
created (`|created - modified| < 1000` ms) or updated
(`modified > created + 1000` ms); `all` and unknown event values pass every
item through. -/
def filterByEventType (items : List DItem) (event : String) : List DItem :=
  if event = "all" then items
  else if event = "created" then
    items.filter (fun item => decide ((item.created - item.modified).natAbs < 1000))
  else if event = "updated" then
    items.filter (fun item => decide (item.modified > item.created + 1000))
  else items

/-- The `typeMap` record inside `filterByFileType`, with the JS lookup
`typeMap[fileType] || []`: the fixed MIME prefix list of each category,
and `[]` for anything not in the record. -/
def typeMap (fileType : String) : List String :=
  if fileType = "document" then
    ["application/pdf", "application/msword", "application/vnd.", "text/"]
  else if fileType = "image" then ["image/"]
  else if fileType = "video" then ["video/"]
  else if fileType = "audio" then ["audio/"]
  else if fileType = "archive" then
    ["application/zip", "application/x-rar", "application/x-tar", "application/gzip"]
  else []

/-- `filterByFileType` from `GenericFunctions.ts`: `all` returns the items
unchanged, otherwise keep the items whose `mime_type` (empty string when
absent, as in `item.mime_type || ''`) starts with one of the category's
prefixes. -/
def filterByFileType (items : List DItem) (fileType : String) : List DItem :=
  if fileType = "all" then items
  else
    items.filter (fun item =>
      (typeMap fileType).any (fun pattern =>
        strStartsWith (item.mime_type.getD "") pattern))

/-- `filterByModifiedTime` from `GenericFunctions.ts`: keep items with
`startTime < modified ≤ endTime` (times already parsed to epoch ms). -/
def filterByModifiedTime (items : List DItem) (startTime endTime : Int) : List DItem :=
  items.filter (fun item =>
    decide (item.modified > startTime) && decide (item.modified ≤ endTime))

/-- `applyLimit` from `GenericFunctions.ts`: a non-positive limit returns
everything, otherwise the first `limit` items. -/
def applyLimit (items : List DItem) (limit : Int) : List DItem :=
  if limit ≤ 0 then items else items.take limit.toNat

/-- The path normalization inside `filterByPath`: trim, prepend `disk:`
(ensuring a leading `/` first) when the prefix is absent, then drop a
trailing slash unless the result is the root `disk:/`. -/
def normalizePath (targetPath : String) : String :=
  let p1 := strTrim targetPath
  let p2 :=
    if strStartsWith p1 "disk:" then p1
    else "disk:" ++ (if strStartsWith p1 "/" then p1 else "/" ++ p1)
  if strEndsWith p2 "/" && p2 != "disk:/" then strDropLast p2 else p2

/-- `filterByPath` from `GenericFunctions.ts`: empty or `/` target returns
everything; otherwise normalize the target and, unless it is the root
`disk:/`, keep items whose path equals the normalized path or lies strictly
below it (`normalizedPath + "/"` prefix). -/
def filterByPath (items : List DItem) (targetPath : String) : List DItem :=
  if targetPath = "" ∨ targetPath = "/" then items
  else
    let normalizedPath := normalizePath targetPath
    if normalizedPath = "disk:/" then items
    else
      items.filter (fun item =>
        decide (item.path = normalizedPath) ||
        strStartsWith item.path (normalizedPath ++ "/"))

/-- Invocation mode reported by `this.getMode()`: `'manual'` for an
interactive test run, anything else is a scheduled (automated) cycle. -/
inductive Mode where
  | manual
  | automated
deriving DecidableEq, Repr

/-- Result of one `poll` invocation: a non-empty emitted batch
(`return [this.helpers.returnJsonArray(items)]`), the `NoData` sentinel
(`return null`), or a thrown `NodeApiError`. -/
inductive PollOutcome where
  | batch (items : List DItem)
  | noData
  | error
deriving DecidableEq, Repr

/-- The node-scoped workflow static data: the single persisted field
`lastTimeChecked` (parsed epoch ms; `none` when absent, as on first run). -/
structure StaticData where
  lastTimeChecked : Option Int
deriving DecidableEq, Repr

/-- Configuration snapshot read at the start of `poll`: the `event` and
`location` parameters, the `path` parameter (read when location is
`specificPath`), and the optional `fileType` / `limit` entries of the
`options` collection. -/
structure Config where
  event : String
  location : String
  path : String
  fileType : Option String
  limit : Option Int
deriving DecidableEq, Repr

/-- JavaScript `o || d` for an optional string option: absent or empty
string falls back to the default. -/
def jsOrStr (o : Option String) (d : String) : String :=
  match o with
  | none => d
  | some s => if s = "" then d else s

/-- JavaScript `o || d` for an optional numeric option: absent or zero
falls back to the default. -/
def jsOrInt (o : Option Int) (d : Int) : Int :=
  match o with
  | none => d
  | some n => if n = 0 then d else n

/-- The client-side filter pipeline of an automated cycle, in the order the
`poll` body applies it: modification-time window, event type, path scope
(only when a specific path is monitored), detailed MIME filter, and the
user limit (`options.limit || 50`). -/
def automatedFiltered (cfg : Config) (startDate endDate : Int)
    (fetched : List DItem) : List DItem :=
  let fileType := jsOrStr cfg.fileType "all"
  let userLimit := jsOrInt cfg.limit 50
  let items := filterByModifiedTime fetched startDate endDate
  let items := filterByEventType items cfg.event
  let items :=
    if cfg.location = "specificPath" then filterByPath items cfg.path else items
  let items := filterByFileType items fileType
  applyLimit items userLimit

/-- The `poll` method of `Yandex360DiskTrigger`.  `now` is the time captured
once at the start of the cycle (`moment().utc().format()`, modelled as
parsed epoch ms); `fetch` is the outcome of the single outbound
`api.recent` request (the item list extracted from the response body, or a
transport/API failure).  Returns the static data after the invocation and
the invocation's outcome.

Manual mode returns the fetched batch immediately (throwing when the fetch
failed or returned nothing) and never touches the static data.  Automated
mode aborts on a failed fetch without touching the static data; on a
successful fetch it applies the filter pipeline, unconditionally overwrites
`lastTimeChecked` with the cycle's `endDate`, and returns the non-empty
batch or the `NoData` sentinel. -/
def poll (cfg : Config) (mode : Mode) (st : StaticData) (now : Int)
    (fetch : Except Unit (List DItem)) : StaticData × PollOutcome :=
  let startDate := st.lastTimeChecked.getD now
  let endDate := now
  match mode with
  | Mode.manual =>
    match fetch with
    | Except.error _ => (st, PollOutcome.error)
    | Except.ok items =>
      if items = [] then (st, PollOutcome.error)
      else (st, PollOutcome.batch items)
  | Mode.automated =>
    match fetch with
    | Except.error _ => (st, PollOutcome.error)
    | Except.ok fetched =>
      let items := automatedFiltered cfg startDate endDate fetched
      let st' : StaticData := ⟨some endDate⟩
      if items = [] then (st', PollOutcome.noData)
      else (st', PollOutcome.batch items)

/-- One poll invocation as seen by the host scheduler: the mode, the time at
which it runs, and the outcome of its outbound fetch. -/
structure PollStep where
  mode : Mode
  now : Int
  fetch : Except Unit (List DItem)

/-- Fold a sequence of poll invocations over the persisted static data,
keeping only the state (outcomes are delivered to the host each time). -/
def runPolls (cfg : Config) (st : StaticData) : List PollStep → StaticData
  | [] => st
  | step :: rest => runPolls cfg (poll cfg step.mode st step.now step.fetch).1 rest

theorem mem_filterByModifiedTime (items : List DItem) (it : DItem) (ws we : Int) :
    it ∈ filterByModifiedTime items ws we ↔
      it ∈ items ∧ ws < it.modified ∧ it.modified ≤ we := by
  simp [filterByModifiedTime, List.mem_filter]

theorem mem_filterByEventType_created (items : List DItem) (it : DItem) :
    it ∈ filterByEventType items "created" ↔
      it ∈ items ∧ (it.created - it.modified).natAbs < 1000 := by
  simp [filterByEventType, List.mem_filter]

theorem mem_filterByEventType_updated (items : List DItem) (it : DItem) :
    it ∈ filterByEventType items "updated" ↔
      it ∈ items ∧ it.modified > it.created + 1000 := by
  simp [filterByEventType, List.mem_filter]

theorem mem_filterByFileType (items : List DItem) (it : DItem) (ft : String)
    (h : ft ≠ "all") :
    it ∈ filterByFileType items ft ↔
      it ∈ items ∧
        (typeMap ft).any (fun pattern =>
          strStartsWith (it.mime_type.getD "") pattern) = true := by
  simp only [filterByFileType, if_neg h, List.mem_filter]

theorem typeMap_eq_nil (ft : String)
    (h : ft ∉ ["document", "image", "video", "audio", "archive"]) :
    typeMap ft = [] := by
  simp only [List.mem_cons, List.not_mem_nil, or_false, not_or] at h
  obtain ⟨h1, h2, h3, h4, h5⟩ := h
  simp [typeMap, h1, h2, h3, h4, h5]

theorem typeMap_no_match_empty (ft p : String) (hp : p ∈ typeMap ft) :
    strStartsWith "" p = false := by
  unfold typeMap at hp
  repeat' split at hp
  all_goals first
    | exact absurd hp (List.not_mem_nil p)
    | (fin_cases hp <;> decide)

theorem mem_filterByPath (items : List DItem) (it : DItem) (tp : String)
    (h1 : tp ≠ "") (h2 : tp ≠ "/") (h3 : normalizePath tp ≠ "disk:/") :
    it ∈ filterByPath items tp ↔
      it ∈ items ∧
        (it.path = normalizePath tp ∨
          strStartsWith it.path (normalizePath tp ++ "/") = true) := by
  simp only [filterByPath, if_neg (not_or.mpr ⟨h1, h2⟩), if_neg h3, List.mem_filter,
    Bool.or_eq_true, decide_eq_true_eq]

theorem poll_manual_fst (cfg : Config) (st : StaticData) (now : Int)
    (fetch : Except Unit (List DItem)) :
    (poll cfg Mode.manual st now fetch).1 = st := by
  cases fetch with
  | error e => rfl
  | ok items =>
    dsimp only [poll]
    split <;> rfl

theorem poll_automated_ok_fst (cfg : Config) (st : StaticData) (now : Int)
    (l : List DItem) :
    (poll cfg Mode.automated st now (Except.ok l)).1 = ⟨some now⟩ := by
  dsimp only [poll]
  split <;> rfl

theorem runPolls_filter_automated (cfg : Config) (steps : List PollStep) (st : StaticData) :
    runPolls cfg st steps =
      runPolls cfg st (steps.filter fun s => decide (s.mode = Mode.automated)) := by
  induction steps generalizing st with
  | nil => rfl
  | cons step rest ih =>
    cases hm : step.mode with
    | manual =>
      rw [runPolls, hm, poll_manual_fst, List.filter_cons]
      simp only [hm, decide_eq_true_eq]
      rw [if_neg (by simp)]
      exact ih st
    | automated =>
      rw [runPolls, List.filter_cons]
      simp only [hm, decide_eq_true_eq]
      rw [if_pos trivial, runPolls, hm]
      exact ih _

/-- C1: every successful automated poll cycle overwrites the persisted
`lastTimeChecked` with the cycle's captured time `now` (= `windowEnd`),
whatever the fetched list was (so also when filtering leaves nothing); in
particular, when the stored checkpoint is at most `now`, the checkpoint
after the cycle is at least the checkpoint before. -/
theorem automated_cycle_overwrites_checkpoint (cfg : Config) (st : StaticData)
    (now : Int) (l : List DItem) :
    (poll cfg Mode.automated st now (Except.ok l)).1.lastTimeChecked = some now
    ∧ ∀ t, st.lastTimeChecked = some t → t ≤ now →
        ∃ t', (poll cfg Mode.automated st now (Except.ok l)).1.lastTimeChecked = some t'
          ∧ t ≤ t' := by
  refine ⟨by rw [poll_automated_ok_fst], ?_⟩
  intro t _ hle
  exact ⟨now, by rw [poll_automated_ok_fst], hle⟩

theorem automated_cycle_overwrites_checkpoint_witness :
    ∃ t', (poll ⟨"updated", "root", "/", none, none⟩ Mode.automated ⟨some 5⟩ 7
        (Except.ok [])).1.lastTimeChecked = some t' ∧ (5 : Int) ≤ t' :=
  (automated_cycle_overwrites_checkpoint ⟨"updated", "root", "/", none, none⟩
    ⟨some 5⟩ 7 []).2 5 rfl (by decide)

/-- C2: a manual-mode invocation of `poll` leaves the persisted static data
unchanged whatever its fetch outcome was, and running any interleaved
sequence of manual and automated invocations yields the same final static
data as running only the automated ones. -/
theorem manual_invocations_preserve_checkpoint (cfg : Config) (st : StaticData)
    (now : Int) (fetch : Except Unit (List DItem)) (steps : List PollStep) :
    (poll cfg Mode.manual st now fetch).1 = st
    ∧ runPolls cfg st steps =
        runPolls cfg st (steps.filter fun s => decide (s.mode = Mode.automated)) :=
  ⟨poll_manual_fst cfg st now fetch, runPolls_filter_automated cfg steps st⟩

/-- C3: a successful automated cycle returns the `NoData` sentinel exactly
when the filter pipeline leaves nothing, and otherwise the filtered list as
a batch; a returned batch is never empty. -/
theorem automated_cycle_nodata_or_nonempty_batch (cfg : Config) (st : StaticData)
    (now : Int) (l : List DItem) :
    ((poll cfg Mode.automated st now (Except.ok l)).2 =
        if automatedFiltered cfg (st.lastTimeChecked.getD now) now l = []
        then PollOutcome.noData
        else PollOutcome.batch (automatedFiltered cfg (st.lastTimeChecked.getD now) now l))
    ∧ ∀ b, (poll cfg Mode.automated st now (Except.ok l)).2 = PollOutcome.batch b →
        b ≠ [] := by
  by_cases h : automatedFiltered cfg (st.lastTimeChecked.getD now) now l = []
  · refine ⟨by simp [poll, h], ?_⟩
    intro b hb
    simp [poll, h] at hb
  · refine ⟨by simp [poll, h], ?_⟩
    intro b hb hb0
    apply h
    subst hb0
    simp [poll, h] at hb

theorem automated_cycle_nodata_or_nonempty_batch_witness :
    ([(⟨-2000, 7, none, "disk:/c"⟩ : DItem)] : List DItem) ≠ [] :=
  (automated_cycle_nodata_or_nonempty_batch ⟨"updated", "root", "/", none, none⟩
    ⟨some 5⟩ 7 [⟨-2000, 7, none, "disk:/c"⟩]).2 [⟨-2000, 7, none, "disk:/c"⟩]
    (by decide)

/-- C9: an automated cycle whose fetch fails returns the error outcome with
the static data untouched (the window is retried next cycle), and whenever
an automated cycle changes the static data at all, its fetch succeeded and
the checkpoint was written to the cycle's captured time — there is no
partial-success state. -/
theorem fetch_failure_leaves_checkpoint (cfg : Config) (st : StaticData) (now : Int) :
    poll cfg Mode.automated st now (Except.error ()) = (st, PollOutcome.error)
    ∧ ∀ fetch, (poll cfg Mode.automated st now fetch).1 ≠ st →
        ∃ l, fetch = Except.ok l ∧
          (poll cfg Mode.automated st now fetch).1.lastTimeChecked = some now := by
  refine ⟨rfl, ?_⟩
  intro fetch hne
  cases fetch with
  | error e => exact absurd rfl hne
  | ok l => exact ⟨l, rfl, by rw [poll_automated_ok_fst]⟩

theorem fetch_failure_leaves_checkpoint_witness :
    ∃ l, (Except.ok [] : Except Unit (List DItem)) = Except.ok l ∧
      (poll ⟨"updated", "root", "/", none, none⟩ Mode.automated ⟨some 5⟩ 7
        (Except.ok ([] : List DItem))).1.lastTimeChecked = some 7 :=
  (fetch_failure_leaves_checkpoint ⟨"updated", "root", "/", none, none⟩
    ⟨some 5⟩ 7).2 (Except.ok []) (by decide)

/-- C10: no item is kept both by the event filter configured as `created`
and by the event filter configured as `updated`: the two classifications
are mutually exclusive. -/
theorem event_filters_mutually_exclusive (items : List DItem) (it : DItem) :
    ¬(it ∈ filterByEventType items "created" ∧ it ∈ filterByEventType items "updated") := by
  rintro ⟨hc, hu⟩
  rw [mem_filterByEventType_created] at hc
  rw [mem_filterByEventType_updated] at hu
  omega

/-- C5: the event filter keeps an item under `created` exactly when
`|created - modified| < 1000` ms, under `updated` exactly when
`modified - created > 1000` ms, and passes every item through for any
other configured value; in particular equal timestamps classify as
created, a 1.5 s gap as updated, and a 0.5 s gap as created. -/
theorem event_classification_rules (items : List DItem) (it : DItem) (e : String) :
    (it ∈ filterByEventType items "created" ↔
      it ∈ items ∧ (it.created - it.modified).natAbs < 1000)
    ∧ (it ∈ filterByEventType items "updated" ↔
      it ∈ items ∧ it.modified - it.created > 1000)
    ∧ (e = "created" ∨ e = "updated" ∨ filterByEventType items e = items)
    ∧ (it.created = it.modified →
        (it ∈ filterByEventType items "created" ↔ it ∈ items))
    ∧ (it.modified = it.created + 1500 →
        (it ∈ filterByEventType items "updated" ↔ it ∈ items))
    ∧ (it.modified = it.created + 500 →
        (it ∈ filterByEventType items "created" ↔ it ∈ items)) := by
  refine ⟨mem_filterByEventType_created items it, ?_, ?_, ?_, ?_, ?_⟩
  · rw [mem_filterByEventType_updated]
    constructor
    · rintro ⟨h1, h2⟩
      exact ⟨h1, by omega⟩
    · rintro ⟨h1, h2⟩
      exact ⟨h1, by omega⟩
  · by_cases h1 : e = "created"
    · exact Or.inl h1
    by_cases h2 : e = "updated"
    · exact Or.inr (Or.inl h2)
    by_cases h0 : e = "all"
    · exact Or.inr (Or.inr (by simp [filterByEventType, h0]))
    · exact Or.inr (Or.inr (by simp [filterByEventType, h0, h1, h2]))
  · intro h
    rw [mem_filterByEventType_created]
    exact and_iff_left (by omega)
  · intro h
    rw [mem_filterByEventType_updated]
    exact and_iff_left (by omega)
  · intro h
    rw [mem_filterByEventType_created]
    exact and_iff_left (by omega)

theorem event_classification_rules_witness :
    ((⟨42, 42, none, "disk:/e"⟩ : DItem) ∈
        filterByEventType [(⟨42, 42, none, "disk:/e"⟩ : DItem)] "created"
      ↔ (⟨42, 42, none, "disk:/e"⟩ : DItem) ∈ [(⟨42, 42, none, "disk:/e"⟩ : DItem)]) :=
  (event_classification_rules [⟨42, 42, none, "disk:/e"⟩] ⟨42, 42, none, "disk:/e"⟩
    "zzz").2.2.2.1 rfl

/-- C6 counterexample: an item modified exactly 1000 ms after creation is
not kept by the event filter configured as `updated`, contrary to the
claim that it falls to `updated`. -/
theorem exact_one_second_not_updated :
    (⟨0, 1000, none, "disk:/b"⟩ : DItem).modified =
        (⟨0, 1000, none, "disk:/b"⟩ : DItem).created + 1000
    ∧ (⟨0, 1000, none, "disk:/b"⟩ : DItem) ∉
        filterByEventType [(⟨0, 1000, none, "disk:/b"⟩ : DItem)] "updated" := by
  decide

/-- C6 (amended): an item whose `modified` is exactly 1000 ms after its
`created` is kept by neither the `updated` filter (strict `>`) nor the
`created` filter (strict `<`). -/
theorem exact_one_second_neither_class (items : List DItem) (it : DItem)
    (h : it.modified = it.created + 1000) :
    it ∉ filterByEventType items "updated" ∧ it ∉ filterByEventType items "created" := by
  constructor
  · rw [mem_filterByEventType_updated]
    rintro ⟨-, h2⟩
    omega
  · rw [mem_filterByEventType_created]
    rintro ⟨-, h2⟩
    omega

theorem exact_one_second_neither_class_witness :
    (⟨5, 1005, none, "disk:/b2"⟩ : DItem) ∉
        filterByEventType [(⟨5, 1005, none, "disk:/b2"⟩ : DItem)] "updated"
    ∧ (⟨5, 1005, none, "disk:/b2"⟩ : DItem) ∉
        filterByEventType [(⟨5, 1005, none, "disk:/b2"⟩ : DItem)] "created" :=
  exact_one_second_neither_class [⟨5, 1005, none, "disk:/b2"⟩]
    ⟨5, 1005, none, "disk:/b2"⟩ (by decide)

/-- C7: the modification-time filter keeps an item exactly when
`windowStart < modified ≤ windowEnd`; an item at exactly `windowStart` is
excluded and an item at exactly `windowEnd` (for a non-degenerate window)
is included. -/
theorem modification_window_half_open (items : List DItem) (it : DItem) (ws we : Int) :
    (it ∈ filterByModifiedTime items ws we ↔
      it ∈ items ∧ ws < it.modified ∧ it.modified ≤ we)
    ∧ (it.modified = ws → it ∉ filterByModifiedTime items ws we)
    ∧ (it.modified = we → ws < we → it ∈ items →
        it ∈ filterByModifiedTime items ws we) := by
  refine ⟨mem_filterByModifiedTime items it ws we, ?_, ?_⟩
  · intro h
    rw [mem_filterByModifiedTime]
    rintro ⟨-, h1, -⟩
    omega
  · intro h hlt hmem
    rw [mem_filterByModifiedTime]
    exact ⟨hmem, by omega, by omega⟩

theorem modification_window_half_open_witness :
    (⟨0, 9, none, "disk:/w"⟩ : DItem) ∈
        filterByModifiedTime [(⟨0, 9, none, "disk:/w"⟩ : DItem)] 3 9
    ∧ (⟨0, 9, none, "disk:/v"⟩ : DItem) ∉
        filterByModifiedTime [(⟨0, 9, none, "disk:/v"⟩ : DItem)] 9 12 :=
  ⟨(modification_window_half_open [⟨0, 9, none, "disk:/w"⟩] ⟨0, 9, none, "disk:/w"⟩
      3 9).2.2 rfl (by decide) (by decide),
   (modification_window_half_open [⟨0, 9, none, "disk:/v"⟩] ⟨0, 9, none, "disk:/v"⟩
      9 12).2.1 rfl⟩

/-- C4 counterexample: an unrecognized category does not pass items
through — it maps to an empty prefix list and so filters out everything,
here an item whose MIME type is `image/png` under category `reports`. -/
theorem unrecognized_category_keeps_nothing :
    filterByFileType [(⟨0, 0, some "image/png", "disk:/a"⟩ : DItem)] "reports" = []
    ∧ filterByFileType [(⟨0, 0, some "image/png", "disk:/a"⟩ : DItem)] "reports"
        ≠ [(⟨0, 0, some "image/png", "disk:/a"⟩ : DItem)] := by
  decide

/-- C4 (amended): `all` passes every item through; a specific category
keeps exactly the items whose MIME type starts with one of the category's
fixed prefixes; an unrecognized category keeps nothing (empty prefix
list), rather than passing items through; an item without a MIME type is
never kept under any category other than `all`; `image/png` passes
`image` and fails `document`. -/
theorem media_type_filter_rules (items : List DItem) (it : DItem) (ft : String) :
    filterByFileType items "all" = items
    ∧ (ft ≠ "all" →
        (it ∈ filterByFileType items ft ↔
          it ∈ items ∧
            (typeMap ft).any (fun pattern =>
              strStartsWith (it.mime_type.getD "") pattern) = true))
    ∧ (ft ∉ ["all", "document", "image", "video", "audio", "archive"] →
        filterByFileType items ft = [])
    ∧ (ft ≠ "all" → it.mime_type = none → it ∉ filterByFileType items ft)
    ∧ (it.mime_type = some "image/png" →
        (it ∈ filterByFileType items "image" ↔ it ∈ items))
    ∧ (it.mime_type = some "image/png" → it ∉ filterByFileType items "document") := by
  refine ⟨by simp [filterByFileType], fun h => mem_filterByFileType items it ft h,
    ?_, ?_, ?_, ?_⟩
  · intro h
    simp only [List.mem_cons, List.not_mem_nil, or_false, not_or] at h
    obtain ⟨h0, h1, h2, h3, h4, h5⟩ := h
    simp [filterByFileType, typeMap, h0, h1, h2, h3, h4, h5]
  · intro hft hm
    rw [mem_filterByFileType items it ft hft]
    rintro ⟨-, hany⟩
    rw [List.any_eq_true] at hany
    obtain ⟨p, hp, hsp⟩ := hany
    rw [hm] at hsp
    simp only [Option.getD_none] at hsp
    simp [typeMap_no_match_empty ft p hp] at hsp
  · intro hm
    rw [mem_filterByFileType items it "image" (by decide)]
    exact and_iff_left (by rw [hm]; decide)
  · intro hm
    rw [mem_filterByFileType items it "document" (by decide)]
    rintro ⟨-, hany⟩
    rw [hm] at hany
    exact absurd hany (by decide)

theorem media_type_filter_rules_witness :
    (⟨0, 0, some "image/png", "disk:/w"⟩ : DItem) ∉
      filterByFileType [(⟨0, 0, some "image/png", "disk:/w"⟩ : DItem)] "document" :=
  (media_type_filter_rules [⟨0, 0, some "image/png", "disk:/w"⟩]
    ⟨0, 0, some "image/png", "disk:/w"⟩ "x").2.2.2.2.2 rfl

/-- C8: over item lists whose paths carry the vendor prefix `disk:/` (the
format of every path the remote API returns), the path filter passes all
items for the root scopes `""`, `"/"`, `"disk:"` and `"disk:/"`;
normalization trims whitespace, prepends `disk:` and a leading `/` when
missing and strips a trailing slash; a non-root scope keeps exactly the
items whose path equals the normalized scope or starts with it followed by
`/`, so scope `n8n` matches `disk:/n8n` and `disk:/n8n/anything` but not
`disk:/n8n123/x`. -/
theorem path_scope_rules (items : List DItem) (it : DItem) (tp : String)
    (hpaths : ∀ x ∈ items, strStartsWith x.path "disk:/" = true) :
    filterByPath items "" = items
    ∧ filterByPath items "/" = items
    ∧ filterByPath items "disk:" = items
    ∧ filterByPath items "disk:/" = items
    ∧ normalizePath "n8n" = "disk:/n8n"
    ∧ normalizePath " /n8n/ " = "disk:/n8n"
    ∧ (tp ≠ "" → tp ≠ "/" → normalizePath tp ≠ "disk:/" →
        (it ∈ filterByPath items tp ↔
          it ∈ items ∧ (it.path = normalizePath tp ∨
            strStartsWith it.path (normalizePath tp ++ "/") = true)))
    ∧ (it.path = "disk:/n8n" → (it ∈ filterByPath items "n8n" ↔ it ∈ items))
    ∧ (it.path = "disk:/n8n/anything" → (it ∈ filterByPath items "n8n" ↔ it ∈ items))
    ∧ (it.path = "disk:/n8n123/x" → it ∉ filterByPath items "n8n") := by
  have hn8n : normalizePath "n8n" = "disk:/n8n" := by decide
  refine ⟨by simp [filterByPath], by simp [filterByPath], ?_, ?_, hn8n, by decide,
    mem_filterByPath items it tp, ?_, ?_, ?_⟩
  · simp only [filterByPath]
    rw [if_neg (by decide), if_neg (by decide : ¬(normalizePath "disk:" = "disk:/"))]
    rw [List.filter_eq_self]
    intro a ha
    rw [show normalizePath "disk:" = "disk:" from by decide,
      show ("disk:" ++ "/" : String) = "disk:/" from by decide, hpaths a ha]
    simp
  · simp only [filterByPath]
    rw [if_neg (by decide), if_pos (by decide : normalizePath "disk:/" = "disk:/")]
  · intro hp
    rw [mem_filterByPath items it "n8n" (by decide) (by decide) (by decide), hn8n, hp]
    exact and_iff_left (Or.inl rfl)
  · intro hp
    rw [mem_filterByPath items it "n8n" (by decide) (by decide) (by decide), hn8n, hp]
    exact and_iff_left (Or.inr (by decide))
  · intro hp
    rw [mem_filterByPath items it "n8n" (by decide) (by decide) (by decide), hn8n, hp]
    rintro ⟨-, hor | hsw⟩
    · exact absurd hor (by decide)
    · exact absurd hsw (by decide)

theorem path_scope_rules_witness :
    filterByPath [(⟨0, 0, none, "disk:/n8n123/x"⟩ : DItem)] "disk:" =
      [(⟨0, 0, none, "disk:/n8n123/x"⟩ : DItem)]
    ∧ (⟨0, 0, none, "disk:/n8n123/x"⟩ : DItem) ∉
        filterByPath [(⟨0, 0, none, "disk:/n8n123/x"⟩ : DItem)] "n8n" :=
  ⟨(path_scope_rules [⟨0, 0, none, "disk:/n8n123/x"⟩] ⟨0, 0, none, "disk:/n8n123/x"⟩
      "n8n" (by decide)).2.2.1,
   (path_scope_rules [⟨0, 0, none, "disk:/n8n123/x"⟩] ⟨0, 0, none, "disk:/n8n123/x"⟩
      "n8n" (by decide)).2.2.2.2.2.2.2.2.2 rfl⟩
